import Mathlib

/-!
Shallow embedding of the time-syscall layer (src/linux-syscall/src/time.rs)
and the id-allocator utility of the zircon-object-rs repository, with the
properties of the specification proved against it.

Machine integers: `usize`/`u64` values are modelled as `Nat`; reductions
modulo `2 ^ 64` are written explicitly at the points where the source
performs a cast or where hardware-width arithmetic could wrap.
-/

/-- Word size of the target: all pointer-sized integers are 64 bits. -/
def USIZE_MOD : Nat := 2 ^ 64

/-- Model of `linux_object::time::TimeSpec`: fields `sec: usize`, `nsec: usize`. -/
structure TimeSpec where
  sec : Nat
  nsec : Nat
deriving DecidableEq

/-- Model of `linux_object::time::TimeVal`: fields `sec: usize`, `usec: usize`. -/
structure TimeVal where
  sec : Nat
  usec : Nat
deriving DecidableEq

/-- Model of `linux_object::time::Tms`: the four process-times fields. -/
structure Tms where
  tms_utime : Nat
  tms_stime : Nat
  tms_cutime : Nat
  tms_cstime : Nat
deriving DecidableEq

/-- The Linux error codes reachable from the embedded syscalls
(`linux_object::error::LxError`): `EINVAL` for invalid argument and
`EFAULT` for the access-fault error class of the user-pointer layer. -/
inductive LxError where
  | EINVAL
  | EFAULT
deriving DecidableEq

/-- `SysResult = Result<usize, LxError>`. -/
abbrev SysResult := Except LxError Nat

/-- Model of a typed user pointer (`kernel_hal::user::UserInPtr` /
`UserOutPtr`): an address into the calling process's memory. The type
parameter is the pointee type, phantom here. -/
structure UserPtr (α : Type) where
  addr : Nat
deriving DecidableEq

/-- `UserPtr::is_null`: the null pointer is address `0`. -/
def UserPtr.is_null {α : Type} (p : UserPtr α) : Bool := p.addr == 0

/-- Modelled from the spec (section 6): the user-pointer validation/copy
layer (`kernel_hal::user`, not part of the excerpt) gives validated, typed
access into the calling process's memory; reads and writes fail with an
access-fault error when the pointer range is invalid. Memory is modelled
as one partial store per pointee type used by the time syscalls. -/
structure UserMem where
  tsValid : Nat → Bool
  tsVal : Nat → TimeSpec
  tvValid : Nat → Bool
  tvVal : Nat → TimeVal
  u64Valid : Nat → Bool
  u64Val : Nat → Nat
  tmsValid : Nat → Bool
  tmsVal : Nat → Tms

/-- Store a `TimeSpec` at an address (unconditional update). -/
def UserMem.setTS (m : UserMem) (a : Nat) (v : TimeSpec) : UserMem :=
  { m with tsVal := fun x => if x = a then v else m.tsVal x }

/-- Store a `TimeVal` at an address (unconditional update). -/
def UserMem.setTV (m : UserMem) (a : Nat) (v : TimeVal) : UserMem :=
  { m with tvVal := fun x => if x = a then v else m.tvVal x }

/-- Store a `u64` at an address (unconditional update). -/
def UserMem.setU64 (m : UserMem) (a : Nat) (v : Nat) : UserMem :=
  { m with u64Val := fun x => if x = a then v else m.u64Val x }

/-- Store a `Tms` at an address (unconditional update). -/
def UserMem.setTms (m : UserMem) (a : Nat) (v : Tms) : UserMem :=
  { m with tmsVal := fun x => if x = a then v else m.tmsVal x }

/-- `UserInPtr<TimeSpec>::read`: access fault on an invalid pointer. -/
def UserMem.readTS (m : UserMem) (p : UserPtr TimeSpec) : Except LxError TimeSpec :=
  if m.tsValid p.addr then .ok (m.tsVal p.addr) else .error .EFAULT

/-- Read back a `TimeVal` (observation helper with the same fault rule). -/
def UserMem.readTV (m : UserMem) (p : UserPtr TimeVal) : Except LxError TimeVal :=
  if m.tvValid p.addr then .ok (m.tvVal p.addr) else .error .EFAULT

/-- Read back a `u64` (observation helper with the same fault rule). -/
def UserMem.readU64 (m : UserMem) (p : UserPtr Nat) : Except LxError Nat :=
  if m.u64Valid p.addr then .ok (m.u64Val p.addr) else .error .EFAULT

/-- Read back a `Tms` (observation helper with the same fault rule). -/
def UserMem.readTms (m : UserMem) (p : UserPtr Tms) : Except LxError Tms :=
  if m.tmsValid p.addr then .ok (m.tmsVal p.addr) else .error .EFAULT

/-- `UserOutPtr<TimeSpec>::write`: access fault on an invalid pointer. -/
def UserMem.writeTS (m : UserMem) (p : UserPtr TimeSpec) (v : TimeSpec) :
    Except LxError UserMem :=
  if m.tsValid p.addr then .ok (m.setTS p.addr v) else .error .EFAULT

/-- `UserOutPtr<TimeVal>::write`: access fault on an invalid pointer. -/
def UserMem.writeTV (m : UserMem) (p : UserPtr TimeVal) (v : TimeVal) :
    Except LxError UserMem :=
  if m.tvValid p.addr then .ok (m.setTV p.addr v) else .error .EFAULT

/-- `UserOutPtr<u64>::write`: access fault on an invalid pointer. -/
def UserMem.writeU64 (m : UserMem) (p : UserPtr Nat) (v : Nat) :
    Except LxError UserMem :=
  if m.u64Valid p.addr then .ok (m.setU64 p.addr v) else .error .EFAULT

/-- `UserOutPtr<Tms>::write`: access fault on an invalid pointer. -/
def UserMem.writeTms (m : UserMem) (p : UserPtr Tms) (v : Tms) :
    Except LxError UserMem :=
  if m.tmsValid p.addr then .ok (m.setTms p.addr v) else .error .EFAULT

/-- State of the machine as the time syscalls observe and mutate it:
the current-time source (a 64-bit nanosecond counter held as a `Nat`,
reduced mod `2 ^ 64` at each read), user memory, and the trace of sleeps
performed (each entry one slept duration, in nanoseconds). -/
structure SysState where
  clock : Nat
  mem : UserMem
  sleeps : List Nat

/-- The HAL clock read backing `TimeSpec::now`: nanoseconds since the
epoch as a 64-bit counter. -/
def timer_now (t : Nat) : Nat := t % USIZE_MOD

/-- `TimeSpec::now()`: splits the clock duration into whole seconds and
the sub-second nanoseconds. -/
def TimeSpec.now (t : Nat) : TimeSpec :=
  { sec := timer_now t / 1000000000, nsec := timer_now t % 1000000000 }

/-- `From<TimeSpec> for TimeVal`: microseconds are `nsec / 1000`. -/
def TimeSpec.toTimeVal (ts : TimeSpec) : TimeVal :=
  { sec := ts.sec, usec := ts.nsec / 1000 }

/-- `TimeVal::now()`: `TimeSpec::now()` converted to seconds+microseconds. -/
def TimeVal.now (t : Nat) : TimeVal :=
  (TimeSpec.now t).toTimeVal

/-- `From<TimeSpec> for Duration`, as total nanoseconds:
`Duration::new(sec as u64, nsec as u32)`; the casts reduce `sec`
mod `2 ^ 64` and `nsec` mod `2 ^ 32`. -/
def TimeSpec.toDuration (ts : TimeSpec) : Nat :=
  (ts.sec % USIZE_MOD) * 1000000000 + ts.nsec % (2 ^ 32)

/-- `linux_object::time::nanosleep(duration).await`: the observable effect
on the state is that the requested duration is slept (appended to the
sleep trace); it touches no user memory and no clock state. -/
def nanosleep (s : SysState) (d : Nat) : SysState :=
  { s with sleeps := s.sleeps ++ [d] }

/-- `USEC_PER_TICK` from src/linux-syscall/src/time.rs. -/
def USEC_PER_TICK : Nat := 10000

/-- `sys_clock_gettime(clock, buf)` from src/linux-syscall/src/time.rs:
ignores which clock was requested, writes `TimeSpec::now()` to `buf`,
returns 0; the write faults on an invalid pointer. -/
def sys_clock_gettime (s : SysState) (clock : Nat) (buf : UserPtr TimeSpec) :
    SysResult × SysState :=
  let _ := clock
  let ts := TimeSpec.now s.clock
  match s.mem.writeTS buf ts with
  | .error e => (.error e, s)
  | .ok m => (.ok 0, { s with mem := m })

/-- `sys_gettimeofday(tv, tz)` from src/linux-syscall/src/time.rs:
rejects a non-null timezone pointer with `EINVAL` before any write;
otherwise writes `TimeVal::now()` to `tv` and returns 0. -/
def sys_gettimeofday (s : SysState) (tv : UserPtr TimeVal) (tz : UserPtr Nat) :
    SysResult × SysState :=
  if !tz.is_null then (.error .EINVAL, s)
  else
    match s.mem.writeTV tv (TimeVal.now s.clock) with
    | .error e => (.error e, s)
    | .ok m => (.ok 0, { s with mem := m })

/-- `sys_time(time)` from src/linux-syscall/src/time.rs: writes the
current seconds (`sec as u64`) through the pointer and returns the same
seconds value. `sec` is below `2 ^ 64` by construction, so the cast is
the identity. -/
def sys_time (s : SysState) (time : UserPtr Nat) : SysResult × SysState :=
  let sec := (TimeSpec.now s.clock).sec
  match s.mem.writeU64 time (sec % USIZE_MOD) with
  | .error e => (.error e, s)
  | .ok m => (.ok sec, { s with mem := m })

/-- `sys_times(buf)` from src/linux-syscall/src/time.rs: writes an
all-zero `Tms` and returns `(tv.sec * 1_000_000 + tv.usec) / USEC_PER_TICK`
computed in `usize` arithmetic. -/
def sys_times (s : SysState) (buf : UserPtr Tms) : SysResult × SysState :=
  let tv := TimeVal.now s.clock
  let tick := (tv.sec * 1000000 + tv.usec) % USIZE_MOD / USEC_PER_TICK
  let new_buf : Tms :=
    { tms_utime := 0, tms_stime := 0, tms_cutime := 0, tms_cstime := 0 }
  match s.mem.writeTms buf new_buf with
  | .error e => (.error e, s)
  | .ok m => (.ok tick, { s with mem := m })

/-- `sys_nanosleep(req)` from src/linux-syscall/src/time.rs: reads the
duration from `req` (propagating an access fault), sleeps it, returns 0. -/
def sys_nanosleep (s : SysState) (req : UserPtr TimeSpec) : SysResult × SysState :=
  match s.mem.readTS req with
  | .error e => (.error e, s)
  | .ok ts => (.ok 0, nanosleep s ts.toDuration)

/-- `linux_object::time::ClockId`: the clock domains matched in
`sys_clock_nanosleep`, variant names as in the source match. -/
inductive ClockId where
  | ClockRealTime
  | ClockMonotonic
  | ClockProcessCpuTimeId
  | ClockThreadCpuTimeId
  | ClockMonotonicRaw
  | ClockRealTimeCoarse
  | ClockMonotonicCoarse
  | ClockBootTime
  | ClockRealTimeAlarm
  | ClockBootTimeAlarm
deriving DecidableEq

/-- `linux_object::time::ClockFlags`: zero flag or `TIMER_ABSTIME`. -/
inductive ClockFlags where
  | ZeroFlag
  | TimerAbsTime
deriving DecidableEq

/-- `sys_clock_nanosleep(clockid, flags, req, rem)` from
src/linux-syscall/src/time.rs, after the `ClockId::from` / `ClockFlags::from`
conversions of its raw integer arguments: reads the request (propagating an
access fault) before dispatching on the clock id; `ClockRealTime` and
`ClockMonotonic` sleep the read duration for both flag values; every other
domain has an empty branch; `rem` is never written; returns 0. -/
def sys_clock_nanosleep (s : SysState) (clockid : ClockId) (flags : ClockFlags)
    (req : UserPtr TimeSpec) (rem : UserPtr TimeSpec) : SysResult × SysState :=
  let _ := rem
  match s.mem.readTS req with
  | .error e => (.error e, s)
  | .ok ts =>
    let duration := ts.toDuration
    match clockid with
    | .ClockRealTime =>
      match flags with
      | .ZeroFlag => (.ok 0, nanosleep s duration)
      | .TimerAbsTime => (.ok 0, nanosleep s duration)
    | .ClockMonotonic =>
      match flags with
      | .ZeroFlag => (.ok 0, nanosleep s duration)
      | .TimerAbsTime => (.ok 0, nanosleep s duration)
    | .ClockProcessCpuTimeId => (.ok 0, s)
    | .ClockThreadCpuTimeId => (.ok 0, s)
    | .ClockMonotonicRaw => (.ok 0, s)
    | .ClockRealTimeCoarse => (.ok 0, s)
    | .ClockMonotonicCoarse => (.ok 0, s)
    | .ClockBootTime => (.ok 0, s)
    | .ClockRealTimeAlarm => (.ok 0, s)
    | .ClockBootTimeAlarm => (.ok 0, s)

/-- Errors of the id-allocator interface named in the spec. -/
inductive AllocError where
  | ExhaustedError
  | InvalidIdError
deriving DecidableEq

/-- Modelled from the spec: the implementation of
`drivers::utils::IdAllocator` (src/drivers/src/utils/id_allocator.rs) is
declared but not included in the excerpt. Per spec sections 3 and 4.1 it
holds a fixed capacity `N` and the set of currently-allocated ids,
conceptually a bitset of size `N`; ids are integers in `[0, N)`. -/
structure IdAllocator where
  capacity : Nat
  used : Finset Nat
deriving DecidableEq

/-- A fresh allocator of capacity `n` with no id live. -/
def IdAllocator.new (n : Nat) : IdAllocator :=
  { capacity := n, used := ∅ }

/-- Modelled from the spec (4.1): `allocate` returns the smallest free id,
or `ExhaustedError` when all `N` slots are in use. -/
def IdAllocator.allocate (a : IdAllocator) :
    Except AllocError (Nat × IdAllocator) :=
  match (List.range a.capacity).find? (fun i => decide (i ∉ a.used)) with
  | some i => .ok (i, { a with used := insert i a.used })
  | none => .error .ExhaustedError

/-- Modelled from the spec (4.1): `release(id)` marks `id` free, failing
with `InvalidIdError` if `id` is out of range or already free. -/
def IdAllocator.release (a : IdAllocator) (id : Nat) :
    Except AllocError IdAllocator :=
  if id < a.capacity ∧ id ∈ a.used then .ok { a with used := a.used.erase id }
  else .error .InvalidIdError

/-- One operation of a client sequence against the allocator. -/
inductive IdOp where
  | alloc
  | rel (id : Nat)
deriving DecidableEq

/-- Apply one operation; a failed operation leaves the allocator unchanged. -/
def IdAllocator.step (a : IdAllocator) (op : IdOp) : IdAllocator :=
  match op with
  | .alloc =>
    match a.allocate with
    | .ok y => y.2
    | .error _ => a
  | .rel i =>
    match a.release i with
    | .ok a2 => a2
    | .error _ => a

/-- Run a sequence of operations left to right. -/
def IdAllocator.run (a : IdAllocator) (ops : List IdOp) : IdAllocator :=
  ops.foldl IdAllocator.step a

/-- `k` consecutive allocations all succeed. -/
def IdAllocator.allocsSucceed : IdAllocator → Nat → Bool
  | _, 0 => true
  | a, k + 1 =>
    match a.allocate with
    | .ok y => y.2.allocsSucceed k
    | .error _ => false

/-- A concrete user memory for instantiating the theorems: every non-null
address is mapped, the null address faults. -/
def sampleMem : UserMem :=
  { tsValid := fun a => a != 0
    tsVal := fun _ => { sec := 1, nsec := 500000000 }
    tvValid := fun a => a != 0
    tvVal := fun _ => { sec := 0, usec := 0 }
    u64Valid := fun a => a != 0
    u64Val := fun _ => 0
    tmsValid := fun a => a != 0
    tmsVal := fun _ => { tms_utime := 0, tms_stime := 0, tms_cutime := 0, tms_cstime := 0 } }

/-- A concrete machine state for instantiating the theorems. -/
def sampleState : SysState :=
  { clock := 1234567890123, mem := sampleMem, sleeps := [] }

/-- C1: sys_gettimeofday with a non-null timezone pointer returns
InvalidArgument (EINVAL) and leaves the whole state, in particular the
memory behind the time pointer, unchanged; with a null timezone pointer
and a valid time pointer it writes the current time as
seconds+microseconds and returns 0, and its only other outcome is an
access fault on an invalid time pointer. -/
theorem sys_gettimeofday_spec (s : SysState) (tv : UserPtr TimeVal) (tz : UserPtr Nat) :
    sys_gettimeofday s tv tz =
      if tz.is_null then
        if s.mem.tvValid tv.addr then
          (.ok 0, { s with mem := s.mem.setTV tv.addr (TimeVal.now s.clock) })
        else (.error .EFAULT, s)
      else (.error .EINVAL, s) := by
  unfold sys_gettimeofday UserMem.writeTV
  cases h : tz.is_null
  · simp [h]
  · cases h2 : s.mem.tvValid tv.addr <;> simp [h, h2]

/-- C3: for the implemented clock domains ClockRealTime and ClockMonotonic,
sys_clock_nanosleep behaves identically under the zero flag and the
TIMER_ABSTIME flag: on every state and every request/remainder pointer the
two flag values yield the same result and the same final state. -/
theorem sys_clock_nanosleep_flags_equiv (s : SysState) (req rem : UserPtr TimeSpec) :
    sys_clock_nanosleep s .ClockRealTime .ZeroFlag req rem =
      sys_clock_nanosleep s .ClockRealTime .TimerAbsTime req rem ∧
    sys_clock_nanosleep s .ClockMonotonic .ZeroFlag req rem =
      sys_clock_nanosleep s .ClockMonotonic .TimerAbsTime req rem := by
  constructor <;> (unfold sys_clock_nanosleep; cases h : s.mem.readTS req <;> simp [h])

/-- C4: sys_clock_gettime writes the current time as sec+nsec into buf and
returns 0 for every clock id, and its only error outcome is the access
fault of an invalid output pointer; the clock id never influences the
result (the code backs every id by the one realtime source). -/
theorem sys_clock_gettime_spec (s : SysState) (clock : Nat) (buf : UserPtr TimeSpec) :
    sys_clock_gettime s clock buf =
      if s.mem.tsValid buf.addr then
        (.ok 0, { s with mem := s.mem.setTS buf.addr (TimeSpec.now s.clock) })
      else (.error .EFAULT, s) := by
  unfold sys_clock_gettime UserMem.writeTS
  cases h : s.mem.tsValid buf.addr <;> simp [h]

/-- C5: sys_nanosleep faults (EFAULT) exactly when reading the input
duration pointer fails; with a readable pointer it sleeps the requested
duration and returns 0; on both paths user memory is written nowhere. -/
theorem sys_nanosleep_spec (s : SysState) (req : UserPtr TimeSpec) :
    sys_nanosleep s req =
      (if s.mem.tsValid req.addr then
        (.ok 0, nanosleep s (s.mem.tsVal req.addr).toDuration)
      else (.error .EFAULT, s)) ∧
    (sys_nanosleep s req).2.mem = s.mem := by
  unfold sys_nanosleep UserMem.readTS nanosleep
  cases h : s.mem.tsValid req.addr <;> simp [h]

/-- C9: sys_clock_nanosleep never writes user memory, in particular not
the remaining-time output pointer rem: for every clock id, flags value,
request and state, the user memory after the call equals the memory
before it, on the error path as well as on success. -/
theorem sys_clock_nanosleep_rem_frame (s : SysState) (clockid : ClockId)
    (flags : ClockFlags) (req rem : UserPtr TimeSpec) :
    (sys_clock_nanosleep s clockid flags req rem).2.mem = s.mem := by
  unfold sys_clock_nanosleep
  cases h : s.mem.readTS req <;> cases clockid <;> cases flags <;> simp [h, nanosleep]

/-- C10: sys_clock_nanosleep reads the request pointer before dispatching
on the clock id, so with an unreadable request pointer it returns the
access-fault error for every clock id and flags value, the unimplemented
clock domains included: none of them returns success in that case. -/
theorem sys_clock_nanosleep_bad_req (s : SysState) (clockid : ClockId)
    (flags : ClockFlags) (req rem : UserPtr TimeSpec)
    (h : s.mem.tsValid req.addr = false) :
    sys_clock_nanosleep s clockid flags req rem = (.error .EFAULT, s) := by
  unfold sys_clock_nanosleep UserMem.readTS
  simp [h]

/-- Instantiation of the C10 theorem: the null request pointer is
unreadable in the sample state, and sys_clock_nanosleep on the
unimplemented ClockBootTime domain then returns EFAULT. -/
theorem sys_clock_nanosleep_bad_req_witness :
    sampleState.mem.tsValid ((⟨0⟩ : UserPtr TimeSpec)).addr = false ∧
    sys_clock_nanosleep sampleState .ClockBootTime .ZeroFlag ⟨0⟩ ⟨8⟩ =
      (.error .EFAULT, sampleState) :=
  ⟨rfl, sys_clock_nanosleep_bad_req sampleState .ClockBootTime .ZeroFlag ⟨0⟩ ⟨8⟩ rfl⟩

/-- C2: for every clock domain other than ClockRealTime and
ClockMonotonic (the eight unimplemented domains) and every flags value,
sys_clock_nanosleep with a readable request pointer performs no sleep and
changes no state, returning success 0 immediately. -/
theorem sys_clock_nanosleep_unimplemented (s : SysState) (clockid : ClockId)
    (flags : ClockFlags) (req rem : UserPtr TimeSpec)
    (h1 : clockid ≠ ClockId.ClockRealTime) (h2 : clockid ≠ ClockId.ClockMonotonic)
    (hreq : s.mem.tsValid req.addr = true) :
    sys_clock_nanosleep s clockid flags req rem = (.ok 0, s) := by
  unfold sys_clock_nanosleep UserMem.readTS
  cases clockid <;> simp [hreq] at h1 h2 ⊢

/-- Instantiation of the C2 theorem at the ClockProcessCpuTimeId domain
with a readable request pointer in the sample state. -/
theorem sys_clock_nanosleep_unimplemented_witness :
    ClockId.ClockProcessCpuTimeId ≠ ClockId.ClockRealTime ∧
    ClockId.ClockProcessCpuTimeId ≠ ClockId.ClockMonotonic ∧
    sampleState.mem.tsValid ((⟨8⟩ : UserPtr TimeSpec)).addr = true ∧
    sys_clock_nanosleep sampleState .ClockProcessCpuTimeId .ZeroFlag ⟨8⟩ ⟨16⟩ =
      (.ok 0, sampleState) :=
  ⟨by decide, by decide, rfl,
    sys_clock_nanosleep_unimplemented sampleState .ClockProcessCpuTimeId .ZeroFlag
      ⟨8⟩ ⟨16⟩ (by decide) (by decide) rfl⟩

/-- C6: sys_time with a writable output pointer returns the current
seconds-since-epoch value, and reading the pointer back after the call
yields that same value: written and returned seconds agree. -/
theorem sys_time_spec (s : SysState) (time : UserPtr Nat)
    (h : s.mem.u64Valid time.addr = true) :
    (sys_time s time).1 = .ok (TimeSpec.now s.clock).sec ∧
    (sys_time s time).2.mem.readU64 time = .ok (TimeSpec.now s.clock).sec := by
  have hlt : (TimeSpec.now s.clock).sec < USIZE_MOD := by
    have hm : s.clock % USIZE_MOD < USIZE_MOD := Nat.mod_lt _ (by norm_num [USIZE_MOD])
    have : (TimeSpec.now s.clock).sec ≤ timer_now s.clock := by
      simp [TimeSpec.now]
      exact Nat.div_le_self _ _
    unfold timer_now at this
    omega
  unfold sys_time UserMem.writeU64 UserMem.readU64 UserMem.setU64
  simp [h, Nat.mod_eq_of_lt hlt]

/-- Instantiation of the C6 theorem at a concrete writable pointer in the
sample state. -/
theorem sys_time_spec_witness :
    sampleState.mem.u64Valid ((⟨8⟩ : UserPtr Nat)).addr = true ∧
    ((sys_time sampleState ⟨8⟩).1 = .ok (TimeSpec.now sampleState.clock).sec ∧
      (sys_time sampleState ⟨8⟩).2.mem.readU64 ⟨8⟩ =
        .ok (TimeSpec.now sampleState.clock).sec) :=
  ⟨rfl, sys_time_spec sampleState ⟨8⟩ rfl⟩

/-- C7: sys_times with a writable output pointer writes zero into all four
process-time fields, and returns the tick count
(current seconds * 1000000 + current microseconds) / USEC_PER_TICK; the
usize computation of the source cannot wrap for any clock value. -/
theorem sys_times_spec (s : SysState) (buf : UserPtr Tms)
    (h : s.mem.tmsValid buf.addr = true) :
    (sys_times s buf).1 =
      .ok (((TimeVal.now s.clock).sec * 1000000 + (TimeVal.now s.clock).usec)
        / USEC_PER_TICK) ∧
    (sys_times s buf).2.mem.readTms buf =
      .ok { tms_utime := 0, tms_stime := 0, tms_cutime := 0, tms_cstime := 0 } := by
  have hm : s.clock % USIZE_MOD < USIZE_MOD := Nat.mod_lt _ (by norm_num [USIZE_MOD])
  have hU : USIZE_MOD = 18446744073709551616 := by norm_num [USIZE_MOD]
  have hsec : (TimeVal.now s.clock).sec ≤ 18446744073 := by
    have h1 : timer_now s.clock ≤ 18446744073709551615 := by
      unfold timer_now; omega
    have h2 : timer_now s.clock / 1000000000 ≤ 18446744073709551615 / 1000000000 :=
      Nat.div_le_div_right h1
    simpa [TimeVal.now, TimeSpec.now, TimeSpec.toTimeVal] using h2
  have husec : (TimeVal.now s.clock).usec ≤ 999999 := by
    have h1 : timer_now s.clock % 1000000000 ≤ 999999999 := by
      have := Nat.mod_lt (timer_now s.clock) (show 0 < 1000000000 by norm_num)
      omega
    have h2 : timer_now s.clock % 1000000000 / 1000 ≤ 999999999 / 1000 :=
      Nat.div_le_div_right h1
    simpa [TimeVal.now, TimeSpec.now, TimeSpec.toTimeVal] using h2
  have hlt : (TimeVal.now s.clock).sec * 1000000 + (TimeVal.now s.clock).usec
      < USIZE_MOD := by
    rw [hU]; omega
  unfold sys_times UserMem.writeTms UserMem.readTms UserMem.setTms
  simp [h, Nat.mod_eq_of_lt hlt]

/-- Instantiation of the C7 theorem at a concrete writable pointer in the
sample state. -/
theorem sys_times_spec_witness :
    sampleState.mem.tmsValid ((⟨8⟩ : UserPtr Tms)).addr = true ∧
    ((sys_times sampleState ⟨8⟩).1 =
      .ok (((TimeVal.now sampleState.clock).sec * 1000000
        + (TimeVal.now sampleState.clock).usec) / USEC_PER_TICK) ∧
    (sys_times sampleState ⟨8⟩).2.mem.readTms ⟨8⟩ =
      .ok { tms_utime := 0, tms_stime := 0, tms_cutime := 0, tms_cstime := 0 }) :=
  ⟨rfl, sys_times_spec sampleState ⟨8⟩ rfl⟩

/-- Reachable-state invariant of the allocator: live ids lie below the
capacity. -/
def IdAllocator.Inv (a : IdAllocator) : Prop :=
  a.used ⊆ Finset.range a.capacity

theorem IdAllocator.new_inv (n : Nat) : (IdAllocator.new n).Inv := by
  simp [IdAllocator.new, IdAllocator.Inv]

theorem IdAllocator.allocate_ok_spec {a : IdAllocator} {i : Nat} {a2 : IdAllocator}
    (h : a.allocate = .ok (i, a2)) :
    i < a.capacity ∧ i ∉ a.used ∧ a2.capacity = a.capacity ∧
      a2.used = insert i a.used := by
  unfold IdAllocator.allocate at h
  cases hf : (List.range a.capacity).find? (fun j => decide (j ∉ a.used)) with
  | none => rw [hf] at h; cases h
  | some j =>
    rw [hf] at h
    have hp := List.find?_some hf
    have hmem : j ∈ List.range a.capacity := List.mem_of_find?_eq_some hf
    simp only [decide_eq_true_eq] at hp
    simp only [Except.ok.injEq, Prod.mk.injEq] at h
    obtain ⟨hji, ha2⟩ := h
    subst hji
    subst ha2
    exact ⟨List.mem_range.mp hmem, hp, rfl, rfl⟩

theorem IdAllocator.step_capacity (a : IdAllocator) (op : IdOp) :
    (a.step op).capacity = a.capacity := by
  cases op with
  | alloc =>
    unfold IdAllocator.step
    cases ha : a.allocate with
    | error e => rfl
    | ok y =>
      obtain ⟨i, a2⟩ := y
      simpa using (IdAllocator.allocate_ok_spec ha).2.2.1
  | rel i =>
    unfold IdAllocator.step IdAllocator.release
    by_cases hc : i < a.capacity ∧ i ∈ a.used <;> simp [hc]

theorem IdAllocator.step_inv {a : IdAllocator} (op : IdOp) (h : a.Inv) :
    (a.step op).Inv := by
  cases op with
  | alloc =>
    unfold IdAllocator.step
    cases ha : a.allocate with
    | error e => exact h
    | ok y =>
      obtain ⟨i, a2⟩ := y
      obtain ⟨hi, _, hcap, hused⟩ := IdAllocator.allocate_ok_spec ha
      show a2.Inv
      unfold IdAllocator.Inv
      rw [hused, hcap]
      exact Finset.insert_subset (Finset.mem_range.mpr hi) h
  | rel i =>
    unfold IdAllocator.step IdAllocator.release
    by_cases hc : i < a.capacity ∧ i ∈ a.used <;> simp [hc]
    · unfold IdAllocator.Inv
      exact fun x hx => h (Finset.erase_subset i a.used hx)
    · exact h

theorem IdAllocator.run_capacity (ops : List IdOp) :
    ∀ a : IdAllocator, (a.run ops).capacity = a.capacity := by
  induction ops with
  | nil => intro a; rfl
  | cons op t ih =>
    intro a
    show ((a.step op).run t).capacity = a.capacity
    rw [ih (a.step op), IdAllocator.step_capacity]

theorem IdAllocator.run_inv (ops : List IdOp) :
    ∀ a : IdAllocator, a.Inv → (a.run ops).Inv := by
  induction ops with
  | nil => intro a h; exact h
  | cons op t ih =>
    intro a h
    show ((a.step op).run t).Inv
    exact ih (a.step op) (IdAllocator.step_inv op h)

theorem IdAllocator.allocate_ok_of_room {a : IdAllocator}
    (hcard : a.used.card < a.capacity) :
    ∃ i a2, a.allocate = .ok (i, a2) := by
  have hex : ∃ x, x ∈ Finset.range a.capacity ∧ x ∉ a.used := by
    by_contra hc
    push_neg at hc
    have hsub : Finset.range a.capacity ⊆ a.used := fun x hx => hc x hx
    have := Finset.card_le_card hsub
    rw [Finset.card_range] at this
    omega
  obtain ⟨x, hxr, hxn⟩ := hex
  unfold IdAllocator.allocate
  cases hf : (List.range a.capacity).find? (fun j => decide (j ∉ a.used)) with
  | none =>
    exfalso
    have hall := List.find?_eq_none.mp hf x (List.mem_range.mpr (Finset.mem_range.mp hxr))
    simp at hall
    exact hxn hall
  | some j => exact ⟨j, _, rfl⟩

theorem IdAllocator.allocsSucceed_of_room :
    ∀ (k : Nat) (a : IdAllocator), a.Inv → a.used.card + k ≤ a.capacity →
      a.allocsSucceed k = true := by
  intro k
  induction k with
  | zero => intro a _ _; rfl
  | succ n ih =>
    intro a hinv hroom
    obtain ⟨i, a2, hok⟩ := IdAllocator.allocate_ok_of_room (a := a) (by omega)
    obtain ⟨hi, hni, hcap, hused⟩ := IdAllocator.allocate_ok_spec hok
    unfold IdAllocator.allocsSucceed
    rw [hok]
    apply ih
    · unfold IdAllocator.Inv
      rw [hused, hcap]
      exact Finset.insert_subset (Finset.mem_range.mpr hi) hinv
    · rw [hused, hcap, Finset.card_insert_of_not_mem hni]
      omega

theorem IdAllocator.run_releaseList :
    ∀ (l : List Nat) (a : IdAllocator), l.Nodup → a.used = l.toFinset →
      (∀ i ∈ l, i < a.capacity) →
      (a.run (l.map IdOp.rel)).used = ∅ ∧
        (a.run (l.map IdOp.rel)).capacity = a.capacity := by
  intro l
  induction l with
  | nil =>
    intro a _ hused _
    exact ⟨by simpa using hused, rfl⟩
  | cons x t ih =>
    intro a hnd hused hlt
    obtain ⟨hxt, hndt⟩ := List.nodup_cons.mp hnd
    have hxmem : x ∈ a.used := by rw [hused]; simp
    have hxlt : x < a.capacity := hlt x (by simp)
    have hstep : a.step (IdOp.rel x) = { a with used := a.used.erase x } := by
      unfold IdAllocator.step IdAllocator.release
      simp [hxlt, hxmem]
    have hused2 : (a.step (IdOp.rel x)).used = t.toFinset := by
      rw [hstep]
      show a.used.erase x = t.toFinset
      rw [hused, List.toFinset_cons]
      exact Finset.erase_insert (by simpa using hxt)
    have hcap2 : (a.step (IdOp.rel x)).capacity = a.capacity :=
      IdAllocator.step_capacity a (IdOp.rel x)
    have hlt2 : ∀ i ∈ t, i < (a.step (IdOp.rel x)).capacity := by
      intro i hi
      rw [hcap2]
      exact hlt i (List.mem_cons_of_mem x hi)
    have hrec := ih (a.step (IdOp.rel x)) hndt hused2 hlt2
    refine ⟨hrec.1, ?_⟩
    show ((a.step (IdOp.rel x)).run (t.map IdOp.rel)).capacity = a.capacity
    rw [hrec.2, hcap2]

/-- C8: for every capacity N and every sequence of allocate/release
operations run from a fresh IdAllocator, the set of currently-live ids is
duplicate-free, every live id lies in [0, N), the number of live ids never
exceeds N, and when the allocator is full, releasing all N ids and then
allocating N further times succeeds at every allocation. -/
theorem idAllocator_run_spec (N : Nat) (ops : List IdOp) :
    ((IdAllocator.new N).run ops).used.val.Nodup ∧
    (∀ i ∈ ((IdAllocator.new N).run ops).used, i < N) ∧
    ((IdAllocator.new N).run ops).used.card ≤ N ∧
    (((IdAllocator.new N).run ops).used.card = N →
      (((IdAllocator.new N).run ops).run
        ((List.range N).map IdOp.rel)).allocsSucceed N = true) := by
  have hcap : ((IdAllocator.new N).run ops).capacity = N :=
    IdAllocator.run_capacity ops (IdAllocator.new N)
  have hinv : ((IdAllocator.new N).run ops).Inv :=
    IdAllocator.run_inv ops (IdAllocator.new N) (IdAllocator.new_inv N)
  have hsub : ((IdAllocator.new N).run ops).used ⊆ Finset.range N := by
    unfold IdAllocator.Inv at hinv
    rwa [hcap] at hinv
  refine ⟨((IdAllocator.new N).run ops).used.nodup, ?_, ?_, ?_⟩
  · intro i hi
    exact Finset.mem_range.mp (hsub hi)
  · have := Finset.card_le_card hsub
    simpa using this
  · intro hfull
    have hused : ((IdAllocator.new N).run ops).used = Finset.range N := by
      apply Finset.eq_of_subset_of_card_le hsub
      rw [Finset.card_range, hfull]
    obtain ⟨hempty, hcap2⟩ :=
      IdAllocator.run_releaseList (List.range N) ((IdAllocator.new N).run ops)
        (List.nodup_range N) (by rw [hused]; ext i; simp)
        (by intro i hi; rw [hcap]; exact List.mem_range.mp hi)
    apply IdAllocator.allocsSucceed_of_room
    · unfold IdAllocator.Inv
      rw [hempty]
      simp
    · rw [hempty, hcap2, hcap]
      simp

/-- Instantiation of the C8 theorem: filling an allocator of capacity 2,
then releasing both ids, lets 2 further allocations succeed. -/
theorem idAllocator_run_spec_witness :
    ((IdAllocator.new 2).run [IdOp.alloc, IdOp.alloc]).used.card = 2 ∧
    (((IdAllocator.new 2).run [IdOp.alloc, IdOp.alloc]).run
      ((List.range 2).map IdOp.rel)).allocsSucceed 2 = true :=
  ⟨by decide, (idAllocator_run_spec 2 [IdOp.alloc, IdOp.alloc]).2.2.2 (by decide)⟩
